import Mathlib

/-!
Verification development for the kubeluma server (a live Kubernetes pod
viewer).  The Python sources under `kubeluma/` are shallowly embedded:

* pure helpers (`parse_cpu`, `parse_memory_value`,
  `calculate_resource_percentages`, `pod_to_view`, `metrics_to_view`,
  the pod-summary reply) become Lean functions on `ℚ`, `ℤ`, `String`
  and `List`;
* Python `float` values are modelled as rationals, `time.time()` as an
  explicit `now : ℤ` argument, Python dictionaries as association
  lists, and Python exceptions as `Except Unit`;
* the stateful loops (`refresh_pods`, `poll_metrics`, `poll_events`,
  `stream_log_task` / `follow_logs`) become explicit state-passing
  functions on small state records;
* `re.search` is modelled by a small classical regular-expression
  matcher (Brzozowski derivatives) tried at every start position of the
  subject string, which is the substring-search semantics of Python's
  `re.search`.
-/

namespace Kubeluma

/-! ## Generic helpers -/

/-- Python rendering of an optional string inside an f-string:
`None` prints as the four characters `None`. -/
def pyOptStr : Option String → String
  | some s => s
  | none => "None"

/-- Exception-propagating map over a list (a Python `for` loop whose body
may raise): the first raised exception aborts the whole traversal. -/
def mapExcept {α β : Type} (f : α → Except Unit β) : List α → Except Unit (List β)
  | [] => .ok []
  | x :: xs =>
    match f x with
    | .error e => .error e
    | .ok y =>
      match mapExcept f xs with
      | .error e => .error e
      | .ok ys => .ok (y :: ys)

/-- Byte-wise (code-point) lexicographic `<=` on character lists; this is
how Python compares two `str` values. -/
def charsLe : List Char → List Char → Bool
  | [], _ => true
  | _ :: _, [] => false
  | x :: xs, y :: ys =>
    if x.toNat < y.toNat then true
    else if y.toNat < x.toNat then false
    else charsLe xs ys

/-- Python string `<=`, as a relation usable by `List.insertionSort`. -/
def strLe (a b : String) : Prop := charsLe a.data b.data = true

instance : DecidableRel strLe :=
  fun a b => instDecidableEqBool (charsLe a.data b.data) true

instance : IsTotal String strLe := ⟨fun a b => by
  unfold strLe
  generalize a.data = la
  generalize b.data = lb
  induction la generalizing lb with
  | nil => exact .inl rfl
  | cons x xs ih =>
    cases lb with
    | nil => exact .inr rfl
    | cons y ys =>
      rcases Nat.lt_trichotomy x.toNat y.toNat with h | h | h
      · exact .inl (by simp [charsLe, h])
      · rcases ih ys with h2 | h2
        · exact .inl (by simp [charsLe, h, h2])
        · exact .inr (by simp [charsLe, h, h2])
      · exact .inr (by simp [charsLe, h])⟩

instance : IsTrans String strLe := ⟨fun a b c => by
  unfold strLe
  generalize a.data = la
  generalize b.data = lb
  generalize c.data = lc
  induction la generalizing lb lc with
  | nil => intro _ _; rfl
  | cons x xs ih =>
    intro h1 h2
    cases lb with
    | nil => simp [charsLe] at h1
    | cons y ys =>
      cases lc with
      | nil => simp [charsLe] at h2
      | cons z zs =>
        simp only [charsLe] at h1 h2 ⊢
        split_ifs at h1 h2 ⊢ <;>
          first
          | rfl
          | (exact ih _ _ h1 h2)
          | (exfalso; omega)⟩

instance : IsRefl String strLe := ⟨fun a => by
  unfold strLe
  generalize a.data = la
  induction la with
  | nil => rfl
  | cons x xs ih => simp [charsLe, ih]⟩

/-! ## Python numeric-string parsing

`int(s)` and `float(s)` on the digit-string subsets the code can meet:
an optional sign followed by digits, and for `float` an optional
fractional part and exponent.  A string outside the grammar parses to
`none`, which models the `ValueError` the Python calls raise. -/

/-- Numeric value of a digit list (most significant first). -/
def digitsVal (l : List Char) : ℕ :=
  l.foldl (fun a c => a * 10 + (c.toNat - 48)) 0

/-- An optional leading sign; returns the sign as `1` or `-1`. -/
def readSign : List Char → ℤ × List Char
  | '+' :: t => (1, t)
  | '-' :: t => (-1, t)
  | l => (1, l)

/-- Python `int(s)`: optional sign then one or more digits. -/
def pyParseInt (s : String) : Option ℤ :=
  let (sg, l) := readSign s.data
  if l.isEmpty then none
  else if l.all (fun c => c.isDigit) then some (sg * (digitsVal l : ℤ))
  else none

/-- Mantissa of a float literal: digits, optionally followed by a dot
and further digits; at least one digit overall. -/
def parseMantissa (l : List Char) : Option ℚ :=
  let ip := l.takeWhile (fun c => c.isDigit)
  let rest := l.dropWhile (fun c => c.isDigit)
  match rest with
  | [] => if ip.isEmpty then none else some (digitsVal ip : ℚ)
  | '.' :: fp =>
    if fp.all (fun c => c.isDigit) && !(ip.isEmpty && fp.isEmpty) then
      some ((digitsVal ip : ℚ) + (digitsVal fp : ℚ) / 10 ^ fp.length)
    else none
  | _ => none

/-- Splits a float literal at the exponent marker `e`/`E`, if any. -/
def splitExp (l : List Char) : List Char × Option (List Char) :=
  let mant := l.takeWhile (fun c => c ≠ 'e' && c ≠ 'E')
  match l.dropWhile (fun c => c ≠ 'e' && c ≠ 'E') with
  | [] => (mant, none)
  | _ :: t => (mant, some t)

/-- Python `float(s)` on the literal grammar
`[sign] digits [. digits] [(e|E) [sign] digits]`. -/
def pyParseFloat (s : String) : Option ℚ :=
  let (sg, l) := readSign s.data
  let (mant, expPart) := splitExp l
  match parseMantissa mant, expPart with
  | some m, none => some ((sg : ℚ) * m)
  | some m, some el =>
    let (esg, ed) := readSign el
    if ed.isEmpty then none
    else if ed.all (fun c => c.isDigit) then
      some ((sg : ℚ) * m * (10 : ℚ) ^ (esg * (digitsVal ed : ℤ)))
    else none
  | none, _ => none

/-! ## Python rounding

`round(x, d)` rounds half to even at `d` decimal digits. -/

/-- Round a rational to the nearest integer, ties to even. -/
def roundHalfEven (q : ℚ) : ℤ :=
  let f := ⌊q⌋
  let r := q - (f : ℚ)
  if r < 1 / 2 then f
  else if 1 / 2 < r then f + 1
  else if f % 2 = 0 then f else f + 1

/-- Python `round(q, d)` for `d` decimal digits. -/
def pyRound (q : ℚ) (d : ℕ) : ℚ :=
  (roundHalfEven (q * 10 ^ d) : ℚ) / 10 ^ d

/-! ## Unit Converter (`metrics_processing.parse_cpu_value` /
`parse_memory_value`; the same code is inlined as `parse_cpu` /
`parse_mem` inside `server.metrics_to_view`). -/

/-- Python `v.endswith(c)` for a one-character suffix. -/
def endsWith1 (s : String) (a : Char) : Bool :=
  match s.data.reverse with
  | y :: _ => y == a
  | [] => false

/-- Python `v.endswith(ab)` for a two-character suffix. -/
def endsWith2 (s : String) (a b : Char) : Bool :=
  match s.data.reverse with
  | y :: x :: _ => x == a && y == b
  | _ => false

/-- Python `v[:-1]`. -/
def strBody1 (s : String) : String := ⟨s.data.dropLast⟩

/-- Python `v[:-2]`. -/
def strBody2 (s : String) : String := ⟨s.data.dropLast.dropLast⟩

/-- `parse_cpu_value` / `server.parse_cpu`: Kubernetes CPU quantity to
millicores; any parse error yields `0`. -/
def parse_cpu (v : String) : ℚ :=
  if endsWith1 v 'n' then
    match pyParseInt (strBody1 v) with
    | some n => (n : ℚ) / 1000000
    | none => 0
  else if endsWith1 v 'm' then
    match pyParseInt (strBody1 v) with
    | some n => (n : ℚ)
    | none => 0
  else
    match pyParseFloat v with
    | some q => q * 1000
    | none => 0

/-- `parse_memory_value` / `server.parse_mem`: Kubernetes memory quantity
to MiB; any parse error or unrecognized suffix yields `0.0`.  The `Ki`
body is parsed with `int`, the others with `float`, exactly as in the
source.  The function is total: no input makes it raise. -/
def parse_memory_value (value : String) : ℚ :=
  if endsWith2 value 'K' 'i' then
    match pyParseInt (strBody2 value) with
    | some n => pyRound ((n : ℚ) / 1024) 2
    | none => 0
  else if endsWith2 value 'M' 'i' then
    match pyParseFloat (strBody2 value) with
    | some q => q
    | none => 0
  else if endsWith2 value 'G' 'i' then
    match pyParseFloat (strBody2 value) with
    | some q => q * 1024
    | none => 0
  else if endsWith2 value 'T' 'i' then
    match pyParseFloat (strBody2 value) with
    | some q => q * 1024 * 1024
    | none => 0
  else 0

/-! ## Resource Percentage Engine
(`metrics_processing.calculate_resource_percentages`). -/

/-- `calculate_resource_percentages(usage, request, limit)`: a slot is
filled only when its denominator passes Python truthiness (`request`)
and the strict positivity test (`request > 0`). -/
def calculate_resource_percentages (usage : ℚ) (request limit : Option ℚ) :
    Option ℚ × Option ℚ :=
  let pct_request : Option ℚ :=
    match request with
    | some r => if r ≠ 0 ∧ 0 < r then some (pyRound (usage / r * 100) 1) else none
    | none => none
  let pct_limit : Option ℚ :=
    match limit with
    | some l => if l ≠ 0 ∧ 0 < l then some (pyRound (usage / l * 100) 1) else none
    | none => none
  (pct_request, pct_limit)

/-! ## Entity View Builder (`server.pod_to_view`)

Python attribute values that may be `None` are `Option`s; an attribute
that is absent on a malformed backend object is also a `none`, and code
that dereferences it (`cstat.state.running`, `ev.name`) raises, which
the embedding models as `Except.error ()`.  `pod_processing.pod_to_view`
and `pod_processing.get_container_state` implement the same logic as
the `server.py` copies embedded here, including the unguarded
`container_status.state.running` access. -/

/-- A secret / config-map key selector (`ref.name`, `ref.key`). -/
structure KeyRef where
  name : Option String
  key : Option String
deriving DecidableEq

/-- A field-path selector (`ref.field_path`). -/
structure PathRef where
  field_path : Option String
deriving DecidableEq

/-- A resource-field selector (`ref.resource`). -/
structure ResFieldRef where
  resource : Option String
deriving DecidableEq

/-- `ev.value_from` with its five alternative reference kinds. -/
structure EnvValueFrom where
  secret_key_ref : Option KeyRef
  config_map_key_ref : Option KeyRef
  field_ref : Option PathRef
  resource_field_ref : Option ResFieldRef
  pod_field_ref : Option PathRef
deriving DecidableEq

/-- An env entry of a container spec.  `name := none` models a malformed
object whose `name` attribute is missing, so reading it raises. -/
structure EnvVar where
  name : Option String
  value : Option String
  value_from : Option EnvValueFrom
deriving DecidableEq

/-- A resolved env entry of the view (`{'name': ..., 'value': ...}`). -/
structure EnvEntry where
  name : String
  value : Option String
deriving DecidableEq

/-- Body of the env loop in `pod_to_view`: resolve one env entry, in the
source priority order secret > config-map > field > resource-field >
pod-field > `(valueFrom)` marker; a raised attribute access is the
`.error` case, which the caller skips. -/
def processEnvVar (ev : EnvVar) : Except Unit EnvEntry :=
  let val_display : Option String :=
    match ev.value with
    | some v => some v
    | none =>
      match ev.value_from with
      | none => none
      | some src =>
        match src.secret_key_ref with
        | some ref => some ("*** (secret " ++ pyOptStr ref.name ++ "/" ++ pyOptStr ref.key ++ ")")
        | none =>
          match src.config_map_key_ref with
          | some ref => some ("configmap:" ++ pyOptStr ref.name ++ "/" ++ pyOptStr ref.key)
          | none =>
            match src.field_ref with
            | some ref => some ("fieldRef:" ++ pyOptStr ref.field_path)
            | none =>
              match src.resource_field_ref with
              | some ref => some ("resourceField:" ++ pyOptStr ref.resource)
              | none =>
                match src.pod_field_ref with
                | some ref => some ("podField:" ++ pyOptStr ref.field_path)
                | none => some ("(valueFrom)")
  match ev.name with
  | none => .error ()
  | some n => .ok { name := n, value := val_display }

/-- The `for ev in sc.env` loop: a failing entry is skipped
(`except Exception: continue`), the others are kept in order. -/
def extract_env_list : List EnvVar → List EnvEntry
  | [] => []
  | ev :: rest =>
    match processEnvVar ev with
    | .ok e => e :: extract_env_list rest
    | .error _ => extract_env_list rest

/-- `cstat.state` when present: the three lifecycle sub-objects.
`running` is its truthiness; `waiting`/`terminated` carry their
(possibly `None`) `reason`. -/
structure ContainerStateObj where
  running : Bool
  waiting : Option (Option String)
  terminated : Option (Option String)
deriving DecidableEq

/-- State-string derivation, priority running > waiting > terminated >
unknown (`server.pod_to_view` lines 358-364 and
`pod_processing.get_container_state`). -/
def containerStateStr (st : ContainerStateObj) : String :=
  if st.running then "running"
  else
    match st.waiting with
    | some reason => "waiting(" ++ pyOptStr reason ++ ")"
    | none =>
      match st.terminated with
      | some reason => "terminated(" ++ pyOptStr reason ++ ")"
      | none => "unknown"

/-- One container status.  `state := none` models a malformed status
whose `state` field is missing (`None`): `cstat.state.running` then
raises, which no handler in `pod_to_view` catches. -/
structure ContainerStatus where
  name : String
  ready : Bool
  restart_count : ℤ
  image : String
  state : Option ContainerStateObj
deriving DecidableEq

/-- `get_container_state`: dereferences `cstat.state`. -/
def get_container_state (c : ContainerStatus) : Except Unit String :=
  match c.state with
  | none => .error ()
  | some st => .ok (containerStateStr st)

/-- A `requests` or `limits` dict (only the `cpu`/`memory` keys are
read). -/
structure ResourceDict where
  cpu : Option String
  memory : Option String
deriving DecidableEq

/-- `sc.resources` with its optional `requests`/`limits` dicts. -/
structure ResourceSpec where
  requests : Option ResourceDict
  limits : Option ResourceDict
deriving DecidableEq

/-- The view-side resource dicts `{'requests': ..., 'limits': ...}`; a
`none` field is a key absent from the dict. -/
structure ResourcesView where
  requests_cpu : Option String
  requests_memory : Option String
  limits_cpu : Option String
  limits_memory : Option String
deriving DecidableEq

/-- Python truthiness of `rq.get(k)`: both a missing key and an empty
string fail the `if rq.get(k):` test. -/
def truthyStr : Option String → Option String
  | some s => if s = "" then none else some s
  | none => none

/-- One container spec (`sc`). -/
structure PodSpecContainer where
  name : String
  env : Option (List EnvVar)
  resources : Option ResourceSpec
deriving DecidableEq

/-- Resource capture of `pod_to_view` (`res_req` / `res_lim`). -/
def extract_container_resources (sc : Option PodSpecContainer) : ResourcesView :=
  match sc with
  | none => ⟨none, none, none, none⟩
  | some c =>
    match c.resources with
    | none => ⟨none, none, none, none⟩
    | some res =>
      let rq := res.requests.getD ⟨none, none⟩
      let lm := res.limits.getD ⟨none, none⟩
      ⟨truthyStr rq.cpu, truthyStr rq.memory, truthyStr lm.cpu, truthyStr lm.memory⟩

/-- One container of the view dictionary. -/
structure ContainerView where
  name : String
  ready : Bool
  restarts : ℤ
  state : String
  image : String
  env : List EnvEntry
  resources : ResourcesView
deriving DecidableEq

/-- `p.metadata` (the `namespace` attribute is called `ns` here because
of the Lean keyword). -/
structure PodMeta where
  name : String
  uid : String
  ns : String
  creation_timestamp : Option ℤ
deriving DecidableEq

/-- `p.status`. -/
structure PodStatus where
  phase : String
  host_ip : Option String
  pod_ip : Option String
  container_statuses : Option (List ContainerStatus)
deriving DecidableEq

/-- A raw pod.  `spec_containers` is `getattr(p.spec, 'containers', [])`. -/
structure Pod where
  metadata : PodMeta
  spec_containers : Option (List PodSpecContainer)
  status : PodStatus
deriving DecidableEq

/-- The display-ready pod view returned by `pod_to_view`. -/
structure PodView where
  name : String
  uid : String
  ns : String
  phase : String
  node : Option String
  podIP : Option String
  ageSeconds : ℤ
  containers : List ContainerView
deriving DecidableEq

/-- `spec_map` lookup: the dict maps each spec name to the last spec
with that name, hence the search over the reversed list. -/
def spec_map_find (specs : List PodSpecContainer) (n : String) : Option PodSpecContainer :=
  specs.reverse.find? (fun sc => sc.name == n)

/-- Body of the `for cstat in status.container_statuses` loop: the state
string is derived first and without any exception handler, then env and
resources are captured. -/
def container_to_view (specs : List PodSpecContainer) (cstat : ContainerStatus) :
    Except Unit ContainerView :=
  match get_container_state cstat with
  | .error e => .error e
  | .ok state =>
    let sc := spec_map_find specs cstat.name
    let env_list : List EnvEntry :=
      match sc with
      | some c =>
        match c.env with
        | some evs => extract_env_list evs
        | none => []
      | none => []
    let res := extract_container_resources sc
    .ok { name := cstat.name, ready := cstat.ready, restarts := cstat.restart_count,
          state := state, image := cstat.image, env := env_list, resources := res }

/-- `pod_to_view(p)` with the wall clock passed explicitly. -/
def pod_to_view (now : ℤ) (p : Pod) : Except Unit PodView :=
  let specs := p.spec_containers.getD []
  match mapExcept (container_to_view specs) (p.status.container_statuses.getD []) with
  | .error e => .error e
  | .ok containers =>
    let age_seconds : ℤ :=
      match p.metadata.creation_timestamp with
      | some ts => now - ts
      | none => 0
    .ok { name := p.metadata.name, uid := p.metadata.uid, ns := p.metadata.ns,
          phase := p.status.phase, node := p.status.host_ip, podIP := p.status.pod_ip,
          ageSeconds := age_seconds, containers := containers }

/-! ## State Hub: canonical map, focus, summary subscription
(`server.refresh_pods`, `websocket_endpoint`). -/

/-- One row of the pod-summary push. -/
structure PodSummaryRow where
  name : String
  ns : String
  phase : String
  restarts : ℤ
  ready : ℕ
  total : ℕ
deriving DecidableEq

/-- The per-pod rollup built in `refresh_pods` and in the summary
subscription handler. -/
def summaryRow (n : String) (pv : PodView) : PodSummaryRow :=
  { name := n, ns := pv.ns, phase := pv.phase,
    restarts := (pv.containers.map (fun c => c.restarts)).sum,
    ready := (pv.containers.filter (fun c => c.ready)).length,
    total := pv.containers.length }

/-- Messages pushed to one observer by the summary subscription. -/
inductive OutMsg where
  | pods (rows : List PodSummaryRow) (focus : Option String)
  | pod (detail : PodView)
deriving DecidableEq

/-- Handler of `subscribe(channel='pod')` (`server.py` lines 64-74): the
summary is sent only under `if hub.pods:`, the focused detail only
under `if hub.focus_pod and hub.focus_pod in hub.pods:`. -/
def subscribePodReply (pods : List (String × PodView)) (focus : Option String) :
    List OutMsg :=
  (if pods.isEmpty then [] else [.pods (pods.map fun p => summaryRow p.1 p.2) focus])
    ++ (match focus with
        | some f =>
          match pods.lookup f with
          | some pv => [.pod pv]
          | none => []
        | none => [])

/-- The hub state the discovery loop and the focus handler touch. -/
structure Hub where
  pods : List (String × PodView)
  focus_pod : Option String

/-- Keys of the canonical map. -/
def podKeys (pods : List (String × PodView)) : List String := pods.map (fun p => p.1)

/-- `sorted(hub.pods.keys())[0]` (Python sorts strings by code point). -/
def sortedFirstKey (pods : List (String × PodView)) : Option String :=
  ((podKeys pods).insertionSort strLe).head?

/-- The canonical-map replacement and focus reconciliation of one
successful discovery cycle (`refresh_pods`, lines 160-171): install the
new map, then reassign or clear the focus. -/
def refresh_pods_step (pods_view : List (String × PodView)) (h : Hub) : Hub :=
  if pods_view.isEmpty then
    { pods := pods_view, focus_pod := none }
  else
    match h.focus_pod with
    | none => { pods := pods_view, focus_pod := sortedFirstKey pods_view }
    | some f =>
      if (podKeys pods_view).contains f then { pods := pods_view, focus_pod := some f }
      else { pods := pods_view, focus_pod := sortedFirstKey pods_view }

/-- Handler of a `focus` request (`websocket_endpoint`, lines 79-85): an
unknown pod name is silently ignored. -/
def focus_request (h : Hub) (pod : String) : Hub :=
  if (podKeys h.pods).contains pod then { h with focus_pod := some pod } else h

/-! ## Metrics view and metrics loop (`server.metrics_to_view`,
`server.poll_metrics`). -/

/-- Default red thresholds (`KUBELUMA_CPU_LIMIT_RED_PCT` /
`KUBELUMA_MEM_LIMIT_RED_PCT` unset). -/
def CPU_LIMIT_RED_PCT : ℕ := 90

def MEM_LIMIT_RED_PCT : ℕ := 80

/-- One entry of `m['containers']` with the flattened
`c.get('usage', \x7b\x7d).get('cpu', '0')` accesses. -/
structure UsageEntry where
  name : String
  usage_cpu : Option String
  usage_memory : Option String
deriving DecidableEq

/-- The raw metrics object (`m.get('containers', [])`). -/
structure MetricsData where
  containers : Option (List UsageEntry)
deriving DecidableEq

/-- One container of the metrics view. -/
structure MContainerView where
  name : String
  cpu : ℚ
  memoryMiB : ℚ
  cpuRequest : Option ℚ
  cpuLimit : Option ℚ
  memRequestMiB : Option ℚ
  memLimitMiB : Option ℚ
  cpuPctOfRequest : Option ℚ
  cpuPctOfLimit : Option ℚ
  memPctOfRequest : Option ℚ
  memPctOfLimit : Option ℚ
deriving DecidableEq

/-- The metrics view with its thresholds. -/
structure MetricsView where
  containers : List MContainerView
  cpuLimitRed : ℕ
  memLimitRed : ℕ
deriving DecidableEq

/-- `res_map` lookup (a dict keyed by container name, last write wins). -/
def res_map_find (pv : Option PodView) (n : String) : Option ResourcesView :=
  match pv with
  | none => none
  | some pvv => (pvv.containers.reverse.find? (fun c => c.name == n)).map (fun c => c.resources)

/-- Body of the `for c in m.get('containers', [])` loop of
`metrics_to_view`: note the percentage guards are plain truthiness
(`if req_cpu:`), that is non-zero, in this inline copy. -/
def metrics_container (rv : Option ResourcesView) (c : UsageEntry) : MContainerView :=
  let cpu_m := parse_cpu (c.usage_cpu.getD ("0"))
  let mem_mib := parse_memory_value (c.usage_memory.getD ("0"))
  match rv with
  | none =>
    { name := c.name, cpu := cpu_m, memoryMiB := mem_mib,
      cpuRequest := none, cpuLimit := none, memRequestMiB := none, memLimitMiB := none,
      cpuPctOfRequest := none, cpuPctOfLimit := none,
      memPctOfRequest := none, memPctOfLimit := none }
  | some r =>
    let req_cpu := r.requests_cpu.map parse_cpu
    let lim_cpu := r.limits_cpu.map parse_cpu
    let req_mem := r.requests_memory.map parse_memory_value
    let lim_mem := r.limits_memory.map parse_memory_value
    let pct_cpu_req : Option ℚ :=
      match req_cpu with
      | some rc => if rc ≠ 0 then some (pyRound (cpu_m / rc * 100) 1) else none
      | none => none
    let pct_cpu_lim : Option ℚ :=
      match lim_cpu with
      | some lc => if lc ≠ 0 then some (pyRound (cpu_m / lc * 100) 1) else none
      | none => none
    let pct_mem_req : Option ℚ :=
      match req_mem with
      | some rm => if rm ≠ 0 then some (pyRound (mem_mib / rm * 100) 1) else none
      | none => none
    let pct_mem_lim : Option ℚ :=
      match lim_mem with
      | some lmv => if lmv ≠ 0 then some (pyRound (mem_mib / lmv * 100) 1) else none
      | none => none
    { name := c.name, cpu := cpu_m, memoryMiB := mem_mib,
      cpuRequest := req_cpu, cpuLimit := lim_cpu,
      memRequestMiB := req_mem, memLimitMiB := lim_mem,
      cpuPctOfRequest := pct_cpu_req, cpuPctOfLimit := pct_cpu_lim,
      memPctOfRequest := pct_mem_req, memPctOfLimit := pct_mem_lim }

/-- `metrics_to_view(m, pod_view)`. -/
def metrics_to_view (m : MetricsData) (pod_view : Option PodView) : MetricsView :=
  { containers := (m.containers.getD []).map
      (fun c => metrics_container (res_map_find pod_view c.name) c),
    cpuLimitRed := CPU_LIMIT_RED_PCT, memLimitRed := MEM_LIMIT_RED_PCT }

/-- Outcome of `fetch_metrics`: a truthy metrics object, a falsy one
(`None` or empty), or a raised exception. -/
inductive FetchOutcome where
  | ok (m : MetricsData)
  | empty
  | err
deriving DecidableEq

/-- What one metrics cycle broadcasts. -/
inductive MetricsMsg where
  | view (v : MetricsView)
  | disabled
deriving DecidableEq

/-- One iteration of `poll_metrics` (lines 191-209): everything is
gated on `if hub.focus_pod and kube.metrics and hub.focus_pod in
hub.pods:`; inside the gate a truthy fetch broadcasts the computed
view, a falsy fetch or an exception broadcasts the disabled marker;
outside the gate nothing is broadcast. -/
def poll_metrics_cycle (focus : Option String) (pods : List (String × PodView))
    (hasMetricsApi : Bool) (fetch : FetchOutcome) : Option MetricsMsg :=
  match focus with
  | none => none
  | some f =>
    if hasMetricsApi && (pods.lookup f).isSome then
      match fetch with
      | .ok m => some (.view (metrics_to_view m (pods.lookup f)))
      | .empty => some .disabled
      | .err => some .disabled
    else none

/-! ## Events loop (`server.poll_events`). -/

/-- One raw backend event; `regarding_name`/`regarding_uid` are the
resolved `regarding or involved_object` fields, `event_time` and
`last_timestamp` the resolved `.timestamp()` values. -/
structure RawEvent where
  uid : Option String
  regarding_name : Option String
  regarding_uid : Option String
  ev_type : Option String
  reason : Option String
  message : Option String
  event_time : Option ℤ
  last_timestamp : Option ℤ
deriving DecidableEq

/-- The broadcast payload of an accepted event. -/
structure EventMsg where
  pod : String
  ev_type : String
  reason : String
  message : String
  ageSeconds : ℤ
deriving DecidableEq

/-- Mutable state of one events cycle: the seen window (uid to
first-seen time), the three logged counters, and the broadcasts made. -/
structure EventsCycleState where
  seen : List (String × ℤ)
  matched : ℕ
  skipped_seen : ℕ
  skipped_other : ℕ
  out : List EventMsg
deriving DecidableEq

/-- Body of the `for e in ev_list.items` loop of `poll_events` (lines
247-278), in source order: missing uid, then the `uid in seen` test,
then the missing-target test, then the relevance test against current
pod uids and names, and only then the seen insertion and broadcast. -/
def process_event (podUids podNames : List String) (now : ℤ)
    (st : EventsCycleState) (e : RawEvent) : EventsCycleState :=
  match e.uid with
  | none => { st with skipped_other := st.skipped_other + 1 }
  | some uid =>
    if (st.seen.lookup uid).isSome then
      { st with skipped_seen := st.skipped_seen + 1 }
    else
      match e.regarding_name with
      | none => { st with skipped_other := st.skipped_other + 1 }
      | some rname =>
        let uidMatch : Bool :=
          match e.regarding_uid with
          | some u => podUids.contains u
          | none => false
        if !uidMatch && !podNames.contains rname then
          { st with skipped_other := st.skipped_other + 1 }
        else
          let ts : Option ℤ :=
            match e.event_time with
            | some t => some t
            | none => e.last_timestamp
          let age : ℤ :=
            match ts with
            | some t => if t ≠ 0 then now - t else 0
            | none => 0
          { st with
            seen := (uid, now) :: st.seen,
            matched := st.matched + 1,
            out := st.out ++ [{ pod := rname, ev_type := e.ev_type.getD (""),
                                reason := e.reason.getD (""),
                                message := e.message.getD (""), ageSeconds := age }] }

/-- Seen-window ceiling (`SEEN_MAX`). -/
def SEEN_MAX : ℕ := 5000

/-- Seen-window TTL in seconds (`SEEN_TTL`). -/
def SEEN_TTL : ℤ := 3600

/-- Ordering of seen entries by first-seen time (the sort key
`lambda kv: kv[1]`). -/
def seenLe (a b : String × ℤ) : Prop := a.2 ≤ b.2

instance : DecidableRel seenLe := fun a b => Int.decLe a.2 b.2

instance : IsTotal (String × ℤ) seenLe := ⟨fun a b => Int.le_total a.2 b.2⟩

instance : IsTrans (String × ℤ) seenLe := ⟨fun _ _ _ h1 h2 => le_trans h1 h2⟩

/-- The two-phase pruning at the end of an events cycle (lines
284-296): when the window exceeds `SEEN_MAX`, first drop entries with
first-seen time before `now - SEEN_TTL`; if still above the ceiling,
pop the keys of the oldest `len(seen) - SEEN_MAX` remaining entries. -/
def prune_seen (now : ℤ) (seen : List (String × ℤ)) : List (String × ℤ) :=
  if SEEN_MAX < seen.length then
    let cutoff := now - SEEN_TTL
    let s1 := seen.filter (fun kv => !decide (kv.2 < cutoff))
    if SEEN_MAX < s1.length then
      let evict := (s1.insertionSort seenLe).take (s1.length - SEEN_MAX)
      s1.filter (fun kv => !evict.any (fun e => e.1 == kv.1))
    else s1
  else seen

/-! ## Log Stream Multiplexer (`server.stream_log_task`,
`server.follow_logs`, `websocket_endpoint` logs channel).

Observers are numbered; `logs_subs` is `hub.logs_subs`; `active` is the
local `active` dict of `stream_log_task` (keys are only ever added);
`running` is the set of keys with a live `follow_logs` backend stream;
`followCalls` records one entry per `create_task(follow_logs(...))`. -/
structure MuxState where
  logs_subs : List (String × List ℕ)
  active : List String
  running : List String
  followCalls : List String
deriving DecidableEq

/-- Dict update (assignment to a possibly-present key). -/
def assocSet {α : Type} : List (String × α) → String → α → List (String × α)
  | [], k, v => [(k, v)]
  | (k', v') :: t, k, v => if k' == k then (k, v) :: t else (k', v') :: assocSet t k v

/-- `hub.logs_subs.get(key, set())`. -/
def subsOf (s : MuxState) (key : String) : List ℕ := (s.logs_subs.lookup key).getD []

/-- `subscribe(channel='logs')`: `hub.logs_subs.setdefault(key,set()).add(ws)`. -/
def subscribe_logs (s : MuxState) (w : ℕ) (key : String) : MuxState :=
  let cur := subsOf s key
  let cur' := if cur.contains w then cur else cur ++ [w]
  { s with logs_subs := assocSet s.logs_subs key cur' }

/-- Observer disconnect: `subs.discard(ws)` over every key. -/
def ws_disconnect (s : MuxState) (w : ℕ) : MuxState :=
  { s with logs_subs := s.logs_subs.map (fun kv => (kv.1, kv.2.filter (fun x => x ≠ w))) }

/-- One pass of `stream_log_task` over the focused pod's container keys
(lines 305-313): a key with subscribers and no `active` entry starts a
backend follow task; keys are never removed from `active`. -/
def log_task_tick (s : MuxState) (focusKeys : List String) : MuxState :=
  focusKeys.foldl
    (fun st key =>
      if !(subsOf st key).isEmpty && !st.active.contains key then
        { st with active := st.active ++ [key], running := st.running ++ [key],
                  followCalls := st.followCalls ++ [key] }
      else st)
    s

/-- A raw line reaching `follow_logs._cb` for a key: with no remaining
subscriber the stop event is set and the backend stream ends (the key
leaves `running`); otherwise the line is fanned out. -/
def line_arrives (s : MuxState) (key : String) : MuxState :=
  if (subsOf s key).isEmpty then { s with running := s.running.filter (fun k => k ≠ key) }
  else s

/-- Natural end or error of a backend stream (`stream_logs` returning):
the key leaves `running`; `active` is untouched. -/
def stream_ends (s : MuxState) (key : String) : MuxState :=
  { s with running := s.running.filter (fun k => k ≠ key) }

/-! ## Pod-name filtering (`refresh_pods`, lines 147-153).

The filter pattern is a compiled regular expression; `re.search`
semantics: the pattern may match starting at any position.  The matcher
is a classical Brzozowski-derivative recognizer. -/

/-- Regular expressions over characters. -/
inductive Regex where
  | emptyset : Regex
  | eps : Regex
  | ch (c : Char) : Regex
  | dot : Regex
  | alt (r1 r2 : Regex) : Regex
  | cat (r1 r2 : Regex) : Regex
  | star (r : Regex) : Regex
deriving DecidableEq

/-- Does the language of `r` contain the empty word? -/
def nullable : Regex → Bool
  | .emptyset => false
  | .eps => true
  | .ch _ => false
  | .dot => false
  | .alt r1 r2 => nullable r1 || nullable r2
  | .cat r1 r2 => nullable r1 && nullable r2
  | .star _ => true

/-- Brzozowski derivative of `r` by the character `a`. -/
def rderiv : Regex → Char → Regex
  | .emptyset, _ => .emptyset
  | .eps, _ => .emptyset
  | .ch c, a => if a = c then .eps else .emptyset
  | .dot, _ => .eps
  | .alt r1 r2, a => .alt (rderiv r1 a) (rderiv r2 a)
  | .cat r1 r2, a =>
    if nullable r1 then .alt (.cat (rderiv r1 a) r2) (rderiv r2 a)
    else .cat (rderiv r1 a) r2
  | .star r, a => .cat (rderiv r a) (.star r)

/-- Whole-word acceptance of `cs` by `r`. -/
def matchFull (r : Regex) (cs : List Char) : Bool :=
  nullable (cs.foldl rderiv r)

/-- Python `regex.search(s)` truthiness: some substring of `s` (a slice
starting at any position) is accepted. -/
def regexSearch (r : Regex) (s : String) : Bool :=
  (List.range (s.data.length + 1)).any (fun i =>
    (List.range (s.data.length - i + 1)).any (fun j =>
      matchFull r ((s.data.drop i).take j)))

/-- The name filter of the discovery loop: `if not
hub.regex.search(name): continue`. -/
def refresh_filter (regex : Regex) (names : List String) : List String :=
  names.filter (fun n => regexSearch regex n)

/-! ## Sample values used by concrete instantiations -/

/-- A minimal concrete pod view. -/
def pv0 : PodView :=
  { name := "a", uid := "u", ns := "default", phase := "Running",
    node := none, podIP := none, ageSeconds := 0, containers := [] }

/-- The multiplexer state at server start. -/
def muxInit : MuxState := ⟨[], [], [], []⟩

/-! # Theorems -/

/-! ## Rounding and suffix helper lemmas -/

theorem roundHalfEven_intCast (n : ℤ) : roundHalfEven (n : ℚ) = n := by
  norm_num [roundHalfEven]

theorem pyRound_eq_of_intCast {q : ℚ} {d : ℕ} {n : ℤ}
    (h : q * 10 ^ d = (n : ℚ)) : pyRound q d = (n : ℚ) / 10 ^ d := by
  rw [pyRound, h, roundHalfEven_intCast]

theorem endsWith2_exclusive {s : String} {a b a' b' : Char}
    (hne : ¬ (a = a' ∧ b = b')) (h : endsWith2 s a b = true) :
    endsWith2 s a' b' = false := by
  unfold endsWith2 at h ⊢
  generalize s.data.reverse = l at h ⊢
  match l with
  | [] => simp at h
  | [y] => simp at h
  | y :: x :: t2 =>
    have h2 : ((x == a) && (y == b)) = true := h
    simp only [Bool.and_eq_true, beq_iff_eq] at h2
    obtain ⟨hx, hy⟩ := h2
    subst hx
    subst hy
    show ((x == a') && (y == b')) = false
    cases hc : ((x == a') && (y == b')) with
    | false => rfl
    | true =>
      simp only [Bool.and_eq_true, beq_iff_eq] at hc
      exact absurd hc hne

/-! ## Claim C8: Resource Percentage Engine -/

/-- Claim C8: a percentage slot of `calculate_resource_percentages` is
produced exactly when the corresponding denominator is present and
strictly positive (otherwise the slot is `none`, not zero), and a
produced slot is `round(usage/denominator*100, 1)`; in particular
`(50, 100, 200)` yields `(50.0, 25.0)` and `(50, 0, None)` yields
`(None, None)`. -/
theorem C8_resource_percentage_engine :
    (∀ (u r : ℚ) (l : Option ℚ), 0 < r →
      (calculate_resource_percentages u (some r) l).1 = some (pyRound (u / r * 100) 1)) ∧
    (∀ (u r : ℚ) (l : Option ℚ), r ≤ 0 →
      (calculate_resource_percentages u (some r) l).1 = none) ∧
    (∀ (u : ℚ) (l : Option ℚ), (calculate_resource_percentages u none l).1 = none) ∧
    (∀ (u l : ℚ) (r : Option ℚ), 0 < l →
      (calculate_resource_percentages u r (some l)).2 = some (pyRound (u / l * 100) 1)) ∧
    (∀ (u l : ℚ) (r : Option ℚ), l ≤ 0 →
      (calculate_resource_percentages u r (some l)).2 = none) ∧
    (∀ (u : ℚ) (r : Option ℚ), (calculate_resource_percentages u r none).2 = none) ∧
    calculate_resource_percentages 50 (some 100) (some 200) = (some 50, some 25) ∧
    calculate_resource_percentages 50 (some 0) none = (none, none) := by
  have hpos : ∀ (u r : ℚ) (l : Option ℚ), 0 < r →
      (calculate_resource_percentages u (some r) l).1 = some (pyRound (u / r * 100) 1) := by
    intro u r l hr
    simp [calculate_resource_percentages, ne_of_gt hr, hr]
  have hposL : ∀ (u l : ℚ) (r : Option ℚ), 0 < l →
      (calculate_resource_percentages u r (some l)).2 = some (pyRound (u / l * 100) 1) := by
    intro u l r hl
    simp [calculate_resource_percentages, ne_of_gt hl, hl]
  refine ⟨hpos, ?_, ?_, hposL, ?_, ?_, ?_, ?_⟩
  · intro u r l hr
    have hc : ¬ (r ≠ 0 ∧ 0 < r) := fun hh => absurd hh.2 (not_lt.mpr hr)
    simp [calculate_resource_percentages, hc]
  · intro u l
    simp [calculate_resource_percentages]
  · intro u l r hl
    have hc : ¬ (l ≠ 0 ∧ 0 < l) := fun hh => absurd hh.2 (not_lt.mpr hl)
    simp [calculate_resource_percentages, hc]
  · intro u r
    simp [calculate_resource_percentages]
  · have e1 : pyRound ((50 : ℚ) / 100 * 100) 1 = 50 := by
      rw [@pyRound_eq_of_intCast ((50 : ℚ) / 100 * 100) 1 500 (by norm_num)]
      norm_num
    have e2 : pyRound ((50 : ℚ) / 200 * 100) 1 = 25 := by
      rw [@pyRound_eq_of_intCast ((50 : ℚ) / 200 * 100) 1 250 (by norm_num)]
      norm_num
    have g1 := hpos 50 100 (some 200) (by norm_num)
    have g2 := hposL 50 200 (some 100) (by norm_num)
    rw [e1] at g1
    rw [e2] at g2
    exact Prod.ext g1 g2
  · norm_num [calculate_resource_percentages]

/-- Concrete instantiation of `C8_resource_percentage_engine`. -/
theorem C8_resource_percentage_engine_witness :
    (calculate_resource_percentages 50 (some 100) (some 200)).1
      = some (pyRound ((50 : ℚ) / 100 * 100) 1) :=
  C8_resource_percentage_engine.1 50 100 (some 200) (by norm_num)

/-! ## Claim C9: Unit Converter, memory quantities -/

/-- Claim C9: `parse_memory_value` maps a `Ki` quantity to its integer
body divided by 1024 rounded to 2 decimals, `Mi` to the body unchanged,
`Gi` to the body times 1024, `Ti` to the body times 1048576, and any
unrecognized suffix or unparsable body to 0; it is a total function
(never raises); `128Mi` gives 128, `1Gi` gives 1024, `garbage` gives
0. -/
theorem C9_unit_converter_memory :
    (∀ (s : String) (n : ℤ), endsWith2 s 'K' 'i' = true →
      pyParseInt (strBody2 s) = some n →
      parse_memory_value s = pyRound ((n : ℚ) / 1024) 2) ∧
    (∀ (s : String), endsWith2 s 'K' 'i' = true →
      pyParseInt (strBody2 s) = none → parse_memory_value s = 0) ∧
    (∀ (s : String) (q : ℚ), endsWith2 s 'M' 'i' = true →
      pyParseFloat (strBody2 s) = some q → parse_memory_value s = q) ∧
    (∀ (s : String), endsWith2 s 'M' 'i' = true →
      pyParseFloat (strBody2 s) = none → parse_memory_value s = 0) ∧
    (∀ (s : String) (q : ℚ), endsWith2 s 'G' 'i' = true →
      pyParseFloat (strBody2 s) = some q → parse_memory_value s = q * 1024) ∧
    (∀ (s : String) (q : ℚ), endsWith2 s 'T' 'i' = true →
      pyParseFloat (strBody2 s) = some q → parse_memory_value s = q * 1024 * 1024) ∧
    (∀ (s : String), endsWith2 s 'K' 'i' = false → endsWith2 s 'M' 'i' = false →
      endsWith2 s 'G' 'i' = false → endsWith2 s 'T' 'i' = false →
      parse_memory_value s = 0) ∧
    parse_memory_value ("128Mi") = 128 ∧
    parse_memory_value ("1Gi") = 1024 ∧
    parse_memory_value ("garbage") = 0 := by
  have hMi : ∀ (s : String) (q : ℚ), endsWith2 s 'M' 'i' = true →
      pyParseFloat (strBody2 s) = some q → parse_memory_value s = q := by
    intro s q hM hP
    have hK : endsWith2 s 'K' 'i' = false := endsWith2_exclusive (by decide) hM
    simp [parse_memory_value, hK, hM, hP]
  have hGi : ∀ (s : String) (q : ℚ), endsWith2 s 'G' 'i' = true →
      pyParseFloat (strBody2 s) = some q → parse_memory_value s = q * 1024 := by
    intro s q hG hP
    have hK : endsWith2 s 'K' 'i' = false := endsWith2_exclusive (by decide) hG
    have hM : endsWith2 s 'M' 'i' = false := endsWith2_exclusive (by decide) hG
    simp [parse_memory_value, hK, hM, hG, hP]
  refine ⟨?_, ?_, hMi, ?_, hGi, ?_, ?_, ?_, ?_, ?_⟩
  · intro s n hK hP
    simp [parse_memory_value, hK, hP]
  · intro s hK hP
    simp [parse_memory_value, hK, hP]
  · intro s hM hP
    have hK : endsWith2 s 'K' 'i' = false := endsWith2_exclusive (by decide) hM
    simp [parse_memory_value, hK, hM, hP]
  · intro s q hT hP
    have hK : endsWith2 s 'K' 'i' = false := endsWith2_exclusive (by decide) hT
    have hM : endsWith2 s 'M' 'i' = false := endsWith2_exclusive (by decide) hT
    have hG : endsWith2 s 'G' 'i' = false := endsWith2_exclusive (by decide) hT
    simp [parse_memory_value, hK, hM, hG, hT, hP]
  · intro s hK hM hG hT
    simp [parse_memory_value, hK, hM, hG, hT]
  · have h := hMi ("128Mi") (((1 : ℤ) : ℚ) * ((128 : ℕ) : ℚ)) (by decide) rfl
    rw [h]
    norm_num
  · have h := hGi ("1Gi") (((1 : ℤ) : ℚ) * ((1 : ℕ) : ℚ)) (by decide) rfl
    rw [h]
    norm_num
  · rfl

/-- Concrete instantiation of `C9_unit_converter_memory`. -/
theorem C9_unit_converter_memory_witness :
    parse_memory_value ("128Mi") = ((1 : ℤ) : ℚ) * ((128 : ℕ) : ℚ) :=
  C9_unit_converter_memory.2.2.1 ("128Mi") (((1 : ℤ) : ℚ) * ((128 : ℕ) : ℚ))
    (by decide) rfl

/-! ## Claim C1: Log Stream Multiplexer re-subscription

Evaluation of the multiplexer state machine on the claim's own
scenario.  Two subscriptions to one key do yield exactly one backend
follow call, and the stream does stop once the fan-out set is empty;
but because `stream_log_task` never removes the key from its `active`
dict, a subsequent subscription to the same key starts no new backend
stream, contradicting the claim (and spec section 4.5). -/
theorem C1_log_stream_resubscribe_starts_no_stream :
    (let k := "pod-a::main"
     let s1 := log_task_tick (subscribe_logs (subscribe_logs muxInit 1 k) 2 k) [k]
     let s2 := log_task_tick s1 [k]
     let s3 := line_arrives (ws_disconnect (ws_disconnect s2 1) 2) k
     let s4 := log_task_tick (subscribe_logs s3 3 k) [k]
     s2.followCalls.count k = 1 ∧ s2.running = [k] ∧
       s3.running = [] ∧ s3.followCalls.count k = 1 ∧
       subsOf s4 k = [3] ∧ s4.followCalls.count k = 1 ∧ s4.running = []) := by
  decide

/-! ## Claim C4: events relevance filter versus the dedup window -/

/-- Counterexample to claim C4 as stated: an event whose target matches
no known pod but whose uid is already in the seen window is dropped by
the `uid in seen` dedup test (`skipped_seen`), not before it
(`skipped_other` stays 0) — so the drop does not happen before the
dedup check.  The seen window is unchanged. -/
theorem C4_event_filter_counterexample :
    (let st0 : EventsCycleState := ⟨[("u1", 5)], 0, 0, 0, []⟩
     let e : RawEvent := ⟨some ("u1"), some ("ghost"), none, none, none, none, none, none⟩
     let st1 := process_event ["pu"] ["mypod"] 100 st0 e
     st1.skipped_seen = 1 ∧ st1.skipped_other = 0 ∧ st1.seen = st0.seen) := by
  decide

/-- Claim C4, amended: an event whose referenced target (by uid or by
name) matches no Entity in the canonical map is never broadcast, never
recorded, and never modifies the seen window — the dedup set cannot
grow from irrelevant traffic — though the membership test against the
seen window runs before the relevance filter, so such an event counts
as `skipped_seen` when its uid is already known and as `skipped_other`
otherwise. -/
theorem C4_events_irrelevant_never_recorded :
    ∀ (podUids podNames : List String) (now : ℤ) (st : EventsCycleState) (e : RawEvent),
      (∀ u, e.regarding_uid = some u → podUids.contains u = false) →
      (∀ n, e.regarding_name = some n → podNames.contains n = false) →
      (process_event podUids podNames now st e).seen = st.seen ∧
        (process_event podUids podNames now st e).out = st.out ∧
        (process_event podUids podNames now st e).matched = st.matched ∧
        (process_event podUids podNames now st e).skipped_seen
            + (process_event podUids podNames now st e).skipped_other
          = st.skipped_seen + st.skipped_other + 1 := by
  intro podUids podNames now st e hu hn
  obtain ⟨uid, rn, ru, ty, rs, msg, et, lt2⟩ := e
  cases uid with
  | none =>
    refine ⟨?_, ?_, ?_, ?_⟩ <;> (simp [process_event]; try omega)
  | some u =>
    by_cases hseen : (st.seen.lookup u).isSome
    · refine ⟨?_, ?_, ?_, ?_⟩ <;> (simp [process_event, hseen]; try omega)
    · cases rn with
      | none =>
        refine ⟨?_, ?_, ?_, ?_⟩ <;> (simp [process_event, hseen]; try omega)
      | some rname =>
        have h2 : rname ∉ podNames := by
          have hc := hn rname rfl
          simpa using hc
        cases ru with
        | none =>
          refine ⟨?_, ?_, ?_, ?_⟩ <;> (simp [process_event, hseen, h2]; try omega)
        | some u' =>
          have h1 : u' ∉ podUids := by
            have hc := hu u' rfl
            simpa using hc
          refine ⟨?_, ?_, ?_, ?_⟩ <;> (simp [process_event, hseen, h1, h2]; try omega)

/-- Concrete instantiation of `C4_events_irrelevant_never_recorded`. -/
theorem C4_events_irrelevant_never_recorded_witness :
    (process_event ["pu"] ["mypod"] 100 ⟨[("u1", 5)], 0, 0, 0, []⟩
        ⟨some ("u2"), some ("ghost"), none, none, none, none, none, none⟩).seen
      = [("u1", 5)] :=
  (C4_events_irrelevant_never_recorded ["pu"] ["mypod"] 100
      ⟨[("u1", 5)], 0, 0, 0, []⟩
      ⟨some ("u2"), some ("ghost"), none, none, none, none, none, none⟩
      (by intro u h; cases h)
      (by intro n h; cases h; decide)).1

/-! ## Claim C5: the summary subscription reply -/

/-- Counterexample to claim C5 as stated: with an empty canonical map
the `subscribe(channel='pod')` handler sends nothing at all — no
pod-summary message is delivered, because the send is guarded by
`if hub.pods:`. -/
theorem C5_subscribe_summary_counterexample :
    subscribePodReply [] none = [] := rfl

/-- Claim C5, amended: the summary subscription immediately delivers
the current pod-summary message only when the canonical map is
non-empty (an empty map produces no reply), followed by the focused
entity's full detail exactly when the focus names a key of the map. -/
theorem C5_subscribe_summary_amended :
    (∀ (pods : List (String × PodView)) (focus : Option String), pods ≠ [] →
      (subscribePodReply pods focus).head?
        = some (.pods (pods.map fun p => summaryRow p.1 p.2) focus)) ∧
    (∀ focus, subscribePodReply [] focus = []) ∧
    (∀ (pods : List (String × PodView)) (f : String) (pv : PodView),
      pods.lookup f = some pv → OutMsg.pod pv ∈ subscribePodReply pods (some f)) ∧
    (∀ (pods : List (String × PodView)) (f : String),
      pods.lookup f = none →
      ∀ pv, OutMsg.pod pv ∉ subscribePodReply pods (some f)) := by
  refine ⟨?_, ?_, ?_, ?_⟩
  · intro pods focus hne
    have he : pods.isEmpty = false := by
      cases pods with
      | nil => exact absurd rfl hne
      | cons p t => rfl
    cases hf : focus with
    | none => simp [subscribePodReply, he]
    | some f =>
      cases hl : pods.lookup f with
      | none => simp [subscribePodReply, he, hl]
      | some pv => simp [subscribePodReply, he, hl]
  · intro focus
    cases focus with
    | none => rfl
    | some f => rfl
  · intro pods f pv hl
    by_cases he : pods.isEmpty
    · rw [List.isEmpty_iff] at he
      subst he
      simp at hl
    · have he' : pods.isEmpty = false := by simpa using he
      simp [subscribePodReply, he', hl]
  · intro pods f hl pv
    by_cases he : pods.isEmpty
    · have he' : pods.isEmpty = true := by simpa using he
      simp [subscribePodReply, he', hl]
    · have he' : pods.isEmpty = false := by simpa using he
      simp [subscribePodReply, he', hl]

/-- Concrete instantiation of `C5_subscribe_summary_amended`. -/
theorem C5_subscribe_summary_amended_witness :
    (subscribePodReply [(("a"), pv0)] none).head?
      = some (.pods ([(("a"), pv0)].map fun p => summaryRow p.1 p.2) none) :=
  C5_subscribe_summary_amended.1 [(("a"), pv0)] none (by simp)

/-! ## Claim C3: the metrics loop publications -/

/-- Counterexample to claim C3 as stated: with a focus set but no
metrics backend configured (`kube.metrics` is `None`), the metrics
cycle publishes nothing at all — not a disabled marker — because the
whole body is guarded by `if hub.focus_pod and kube.metrics and
hub.focus_pod in hub.pods:`. -/
theorem C3_metrics_no_backend_counterexample :
    poll_metrics_cycle (some ("p")) [(("p"), pv0)] false .err = none := rfl

/-- Claim C3, amended: when Focus is set, a metrics backend is
configured and the focused key is in the canonical map, every metrics
cycle publishes either the computed metrics view (truthy fetch) or a
`disabled` marker (falsy fetch or fetch failure); in every other state
— no focus, no metrics backend, or focus not in the map — nothing is
published. -/
theorem C3_metrics_cycle_amended :
    (∀ (pods : List (String × PodView)) (b : Bool) (f : FetchOutcome),
      poll_metrics_cycle none pods b f = none) ∧
    (∀ (fc : String) (pods : List (String × PodView)) (f : FetchOutcome),
      poll_metrics_cycle (some fc) pods false f = none) ∧
    (∀ (fc : String) (pods : List (String × PodView)) (b : Bool) (f : FetchOutcome),
      pods.lookup fc = none → poll_metrics_cycle (some fc) pods b f = none) ∧
    (∀ (fc : String) (pods : List (String × PodView)) (pv : PodView) (m : MetricsData),
      pods.lookup fc = some pv →
      poll_metrics_cycle (some fc) pods true (.ok m)
        = some (.view (metrics_to_view m (some pv)))) ∧
    (∀ (fc : String) (pods : List (String × PodView)) (pv : PodView),
      pods.lookup fc = some pv →
      poll_metrics_cycle (some fc) pods true .empty = some .disabled) ∧
    (∀ (fc : String) (pods : List (String × PodView)) (pv : PodView),
      pods.lookup fc = some pv →
      poll_metrics_cycle (some fc) pods true .err = some .disabled) := by
  refine ⟨?_, ?_, ?_, ?_, ?_, ?_⟩
  · intro pods b f
    rfl
  · intro fc pods f
    simp [poll_metrics_cycle]
  · intro fc pods b f hl
    simp [poll_metrics_cycle, hl]
  · intro fc pods pv m hl
    simp [poll_metrics_cycle, hl]
  · intro fc pods pv hl
    simp [poll_metrics_cycle, hl]
  · intro fc pods pv hl
    simp [poll_metrics_cycle, hl]

/-- Concrete instantiation of `C3_metrics_cycle_amended`. -/
theorem C3_metrics_cycle_amended_witness :
    poll_metrics_cycle (some ("p")) [(("p"), pv0)] true .err = some .disabled :=
  C3_metrics_cycle_amended.2.2.2.2.2 ("p") [(("p"), pv0)] pv0 rfl

/-! ## Claim C10: substring-search filter semantics -/

theorem regexSearch_iff (r : Regex) (s : String) :
    regexSearch r s = true ↔
      ∃ i ≤ s.data.length, ∃ j ≤ s.data.length - i,
        matchFull r ((s.data.drop i).take j) = true := by
  unfold regexSearch
  rw [List.any_eq_true]
  constructor
  · rintro ⟨i, hi, hany⟩
    rw [List.any_eq_true] at hany
    obtain ⟨j, hj, hm⟩ := hany
    rw [List.mem_range] at hi hj
    exact ⟨i, by omega, j, by omega, hm⟩
  · rintro ⟨i, hi, j, hj, hm⟩
    refine ⟨i, by rw [List.mem_range]; omega, ?_⟩
    rw [List.any_eq_true]
    exact ⟨j, by rw [List.mem_range]; omega, hm⟩

/-- Claim C10: the discovery loop keeps a listed pod iff the compiled
filter pattern matches at some position within the pod name
(`re.search` substring semantics); a full-name match is not required,
as the pattern `api` on the name `xapi-1` shows. -/
theorem C10_filter_uses_substring_search :
    (∀ (regex : Regex) (names : List String) (n : String),
      n ∈ refresh_filter regex names ↔
        n ∈ names ∧ ∃ i ≤ n.data.length, ∃ j ≤ n.data.length - i,
          matchFull regex ((n.data.drop i).take j) = true) ∧
    (let rApi : Regex := .cat (.ch 'a') (.cat (.ch 'p') (.ch 'i'))
     refresh_filter rApi [("xapi-1")] = [("xapi-1")] ∧
       matchFull rApi ("xapi-1").data = false) := by
  constructor
  · intro regex names n
    rw [refresh_filter, List.mem_filter, regexSearch_iff]
  · constructor
    · decide
    · decide

/-- Concrete instantiation of `C10_filter_uses_substring_search`. -/
theorem C10_filter_uses_substring_search_witness :
    ("xapi-1" : String)
      ∈ refresh_filter (.cat (.ch 'a') (.cat (.ch 'p') (.ch 'i'))) [("xapi-1")] :=
  (C10_filter_uses_substring_search.1 (.cat (.ch 'a') (.cat (.ch 'p') (.ch 'i')))
      [("xapi-1")] ("xapi-1")).mpr
    ⟨by decide, 1, by decide, 3, by decide, by decide⟩

/-! ## Claim C6: focus invariant and reconciliation -/

theorem sortedFirstKey_least (pods : List (String × PodView)) (hne : pods ≠ []) :
    ∃ m, sortedFirstKey pods = some m ∧ m ∈ podKeys pods ∧
      ∀ k ∈ podKeys pods, strLe m k := by
  unfold sortedFirstKey
  have hperm := List.perm_insertionSort strLe (podKeys pods)
  have hsorted := List.sorted_insertionSort strLe (podKeys pods)
  cases hs : (podKeys pods).insertionSort strLe with
  | nil =>
    exfalso
    rw [hs] at hperm
    have hkeys : podKeys pods = [] := List.perm_nil.mp hperm.symm
    cases pods with
    | nil => exact hne rfl
    | cons p t => simp [podKeys] at hkeys
  | cons m t =>
    rw [hs] at hperm hsorted
    refine ⟨m, rfl, ?_, ?_⟩
    · exact hperm.mem_iff.mp (List.mem_cons_self m t)
    · intro k hk
      have hk' : k ∈ m :: t := hperm.mem_iff.mpr hk
      rcases List.mem_cons.mp hk' with hkm | hkt
      · subst hkm
        exact @IsRefl.refl String strLe _ k
      · exact (List.sorted_cons.mp hsorted).1 k hkt

/-- Claim C6: after every successful discovery cycle the Focus is
`none` exactly when the Canonical Map is empty and otherwise names a
key of the map; whenever the prior Focus was unset or its key is gone
from the new map, the new Focus is the lexicographically smallest key;
a focus request preserves the invariant; on keys `{b, a, c}` the Focus
becomes `a`, and removing `a` reassigns it to `b`. -/
theorem C6_focus_invariant_and_reconciliation :
    (∀ (view : List (String × PodView)) (h : Hub) (f : String),
      (refresh_pods_step view h).focus_pod = some f →
        f ∈ podKeys (refresh_pods_step view h).pods) ∧
    (∀ (view : List (String × PodView)) (h : Hub),
      view = [] → (refresh_pods_step view h).focus_pod = none) ∧
    (∀ (view : List (String × PodView)) (h : Hub), view ≠ [] →
      (h.focus_pod = none ∨ ∀ f, h.focus_pod = some f → f ∉ podKeys view) →
      ∃ m, (refresh_pods_step view h).focus_pod = some m ∧ m ∈ podKeys view ∧
        ∀ k ∈ podKeys view, strLe m k) ∧
    (∀ (h : Hub) (pod f : String),
      (∀ g, h.focus_pod = some g → g ∈ podKeys h.pods) →
      (focus_request h pod).focus_pod = some f →
        f ∈ podKeys (focus_request h pod).pods) ∧
    ((refresh_pods_step [(("b"), pv0), (("a"), pv0), (("c"), pv0)] ⟨[], none⟩).focus_pod
        = some ("a") ∧
      (refresh_pods_step [(("b"), pv0), (("c"), pv0)]
          (refresh_pods_step [(("b"), pv0), (("a"), pv0), (("c"), pv0)] ⟨[], none⟩)).focus_pod
        = some ("b")) := by
  have hestep : ∀ (view : List (String × PodView)) (h : Hub), view ≠ [] →
      (h.focus_pod = none ∨ ∀ f, h.focus_pod = some f → f ∉ podKeys view) →
      (refresh_pods_step view h).focus_pod = sortedFirstKey view := by
    intro view h hne hre
    have he : view.isEmpty = false := by
      cases view with
      | nil => exact absurd rfl hne
      | cons p t => rfl
    cases hf : h.focus_pod with
    | none => simp [refresh_pods_step, he, hf]
    | some f0 =>
      rcases hre with hre | hre
      · rw [hf] at hre
        cases hre
      · have hnotin : f0 ∉ podKeys view := hre f0 hf
        simp [refresh_pods_step, he, hf, hnotin]
  refine ⟨?_, ?_, ?_, ?_, ?_, ?_⟩
  · intro view h f
    cases hev : view.isEmpty with
    | true => simp [refresh_pods_step, hev]
    | false =>
      have hne : view ≠ [] := by
        intro hv
        subst hv
        simp at hev
      cases hf : h.focus_pod with
      | none =>
        obtain ⟨m, hm1, hm2, hm3⟩ := sortedFirstKey_least view hne
        simp only [refresh_pods_step, hev, hf, Bool.false_eq_true, if_false, hm1]
        intro hsf
        injection hsf with hsf
        subst hsf
        exact hm2
      | some f0 =>
        by_cases hc : f0 ∈ podKeys view
        · simp only [refresh_pods_step, hev, hf, Bool.false_eq_true, if_false]
          rw [if_pos (by simpa using hc)]
          intro hsf
          injection hsf with hsf
          subst hsf
          exact hc
        · obtain ⟨m, hm1, hm2, hm3⟩ := sortedFirstKey_least view hne
          simp only [refresh_pods_step, hev, hf, Bool.false_eq_true, if_false]
          rw [if_neg (by simpa using hc), hm1]
          intro hsf
          injection hsf with hsf
          subst hsf
          exact hm2
  · intro view h hv
    subst hv
    rfl
  · intro view h hne hre
    obtain ⟨m, hm1, hm2, hm3⟩ := sortedFirstKey_least view hne
    exact ⟨m, by rw [hestep view h hne hre, hm1], hm2, hm3⟩
  · intro h pod f hinv
    by_cases hc : pod ∈ podKeys h.pods
    · simp only [focus_request]
      rw [if_pos (by simpa using hc)]
      intro hsf
      injection hsf with hsf
      subst hsf
      exact hc
    · simp only [focus_request]
      rw [if_neg (by simpa using hc)]
      exact hinv f
  · decide
  · decide

/-- Concrete instantiation of `C6_focus_invariant_and_reconciliation`. -/
theorem C6_focus_invariant_and_reconciliation_witness :
    ∃ m, (refresh_pods_step [(("b"), pv0)] ⟨[], none⟩).focus_pod = some m ∧
      m ∈ podKeys [(("b"), pv0)] ∧ ∀ k ∈ podKeys [(("b"), pv0)], strLe m k :=
  C6_focus_invariant_and_reconciliation.2.2.1 [(("b"), pv0)] ⟨[], none⟩
    (by simp) (Or.inl rfl)

/-! ## Claim C2: Entity View Builder error containment -/

/-- Counterexample to claim C2 as stated: a pod with one well-formed
container status and one malformed status (its `state` field missing)
makes `pod_to_view` raise — no Entity containing the well-formed
container is returned — because the state derivation
`cstat.state.running` runs outside any exception handler. -/
theorem C2_entity_builder_counterexample :
    (let cGood : ContainerStatus := ⟨("main"), true, 0, ("img"), some ⟨true, none, none⟩⟩
     let cBad : ContainerStatus := ⟨("side"), false, 0, ("img2"), none⟩
     let p : Pod := ⟨⟨("pod-1"), ("uid-1"), ("default"), none⟩, some [],
       ⟨("Running"), none, none, some [cGood, cBad]⟩⟩
     pod_to_view 1000 p = Except.error () ∧
       get_container_state cGood = Except.ok ("running")) :=
  ⟨rfl, rfl⟩

/-- Claim C2, amended: a failure while processing a single environment
entry omits only that entry (the env loop is the only per-entry
exception handler in the build), but a malformed container status —
one whose `state` field is missing — raises and aborts the whole
`pod_to_view` build; when every container status carries a state, the
build succeeds and returns one view entry per container status. -/
theorem C2_entity_builder_amended :
    (∀ (now : ℤ) (p : Pod),
      (∀ c ∈ p.status.container_statuses.getD [], c.state.isSome) →
      ∃ v, pod_to_view now p = Except.ok v ∧
        v.containers.length = (p.status.container_statuses.getD []).length) ∧
    (∀ evs : List EnvVar,
      extract_env_list evs = evs.filterMap (fun ev => (processEnvVar ev).toOption)) := by
  have hmap : ∀ (specs : List PodSpecContainer) (cs : List ContainerStatus),
      (∀ c ∈ cs, c.state.isSome) →
      ∃ l, mapExcept (container_to_view specs) cs = .ok l ∧ l.length = cs.length := by
    intro specs cs
    induction cs with
    | nil => exact fun _ => ⟨[], rfl, rfl⟩
    | cons c cs ih =>
      intro hall
      obtain ⟨st, hst⟩ := Option.isSome_iff_exists.mp (hall c (List.mem_cons_self c cs))
      obtain ⟨l, hl, hlen⟩ := ih (fun c' hc' => hall c' (List.mem_cons_of_mem c hc'))
      have hc : ∃ cv, container_to_view specs c = Except.ok cv := by
        simp only [container_to_view, get_container_state, hst]
        exact ⟨_, rfl⟩
      obtain ⟨cv, hcv⟩ := hc
      refine ⟨cv :: l, ?_, by simp [hlen]⟩
      simp only [mapExcept, hcv, hl]
  constructor
  · intro now p hall
    obtain ⟨l, hl, hlen⟩ :=
      hmap (p.spec_containers.getD []) (p.status.container_statuses.getD []) hall
    refine ⟨{ name := p.metadata.name, uid := p.metadata.uid, ns := p.metadata.ns,
              phase := p.status.phase, node := p.status.host_ip, podIP := p.status.pod_ip,
              ageSeconds := (match p.metadata.creation_timestamp with
                             | some ts => now - ts
                             | none => 0),
              containers := l }, ?_, by simpa using hlen⟩
    simp only [pod_to_view, hl]
  · intro evs
    induction evs with
    | nil => rfl
    | cons ev rest ih =>
      cases hev : processEnvVar ev with
      | ok e => simp [extract_env_list, hev, ih, Except.toOption]
      | error e => simp [extract_env_list, hev, ih, Except.toOption]

/-- Concrete instantiation of `C2_entity_builder_amended`. -/
theorem C2_entity_builder_amended_witness :
    ∃ v, pod_to_view 1000
        ⟨⟨("pod-1"), ("uid-1"), ("default"), none⟩, some [],
          ⟨("Running"), none, none,
            some [⟨("main"), true, 0, ("img"), some ⟨true, none, none⟩⟩]⟩⟩
        = Except.ok v ∧ v.containers.length = 1 := by
  obtain ⟨v, hv, hlen⟩ := C2_entity_builder_amended.1 1000
    ⟨⟨("pod-1"), ("uid-1"), ("default"), none⟩, some [],
      ⟨("Running"), none, none,
        some [⟨("main"), true, 0, ("img"), some ⟨true, none, none⟩⟩]⟩⟩
    (by
      intro c hc
      simp at hc
      subst hc
      rfl)
  exact ⟨v, hv, by simpa using hlen⟩

/-! ## Claim C7: seen-window eviction -/

/-- Phase 2 of the pruning: popping the keys of the oldest
`l.length - SEEN_MAX` entries (in first-seen order) of a
distinct-keyed window `l` leaves exactly `SEEN_MAX` entries, removes
only entries no newer than every survivor, and keeps every entry that
has at least `l.length - SEEN_MAX` strictly older companions. -/
theorem prune_phase2_spec (l : List (String × ℤ))
    (hnodup : (l.map Prod.fst).Nodup) (hlen : SEEN_MAX < l.length) :
    ((l.filter (fun kv =>
        !((l.insertionSort seenLe).take (l.length - SEEN_MAX)).any
          (fun e => e.1 == kv.1))).length = SEEN_MAX) ∧
    (∀ x ∈ l, x ∉ l.filter (fun kv =>
        !((l.insertionSort seenLe).take (l.length - SEEN_MAX)).any
          (fun e => e.1 == kv.1)) →
      ∀ y ∈ l.filter (fun kv =>
        !((l.insertionSort seenLe).take (l.length - SEEN_MAX)).any
          (fun e => e.1 == kv.1)),
        x.2 ≤ y.2) ∧
    (∀ x ∈ l, l.length - SEEN_MAX ≤ (l.filter (fun kv => decide (kv.2 < x.2))).length →
      x ∈ l.filter (fun kv =>
        !((l.insertionSort seenLe).take (l.length - SEEN_MAX)).any
          (fun e => e.1 == kv.1))) := by
  set sorted := l.insertionSort seenLe with hsorteddef
  set m := l.length - SEEN_MAX with hmdef
  set evict := sorted.take m with hevictdef
  set pNot : String × ℤ → Bool := fun kv => !evict.any (fun e => e.1 == kv.1) with hpnotdef
  set r := l.filter pNot with hrdef
  have hperm : sorted.Perm l := List.perm_insertionSort seenLe l
  have hsorted : List.Sorted seenLe sorted := List.sorted_insertionSort seenLe l
  have hsortlen : sorted.length = l.length := hperm.length_eq
  have happ : evict ++ sorted.drop m = sorted := List.take_append_drop m sorted
  have hnodupSorted : (sorted.map Prod.fst).Nodup := (hperm.map Prod.fst).nodup_iff.mpr hnodup
  have hpairwise : ∀ a ∈ evict, ∀ b ∈ sorted.drop m, a.2 ≤ b.2 := by
    have hp : List.Pairwise seenLe (evict ++ sorted.drop m) := by
      rw [happ]
      exact hsorted
    exact fun a ha b hb => (List.pairwise_append.mp hp).2.2 a ha b hb
  have hkeydisj : ∀ a ∈ evict, ∀ b ∈ sorted.drop m, a.1 ≠ b.1 := by
    have hnd : ((evict ++ sorted.drop m).map Prod.fst).Nodup := by
      rw [happ]
      exact hnodupSorted
    rw [List.map_append] at hnd
    have hdisj := (List.nodup_append.mp hnd).2.2
    intro a ha b hb heq
    apply hdisj (List.mem_map_of_mem Prod.fst ha)
    rw [heq]
    exact List.mem_map_of_mem Prod.fst hb
  have hevictNot : ∀ e ∈ evict, pNot e = false := by
    intro e he
    have hany : evict.any (fun x => x.1 == e.1) = true :=
      List.any_eq_true.mpr ⟨e, he, by simp⟩
    show (!(evict.any (fun x => x.1 == e.1))) = false
    rw [hany]
    rfl
  have hrestKeep : ∀ y ∈ sorted.drop m, pNot y = true := by
    intro y hy
    have hfalse : evict.any (fun x => x.1 == y.1) = false := by
      cases hx : evict.any (fun x => x.1 == y.1) with
      | false => rfl
      | true =>
        rw [List.any_eq_true] at hx
        obtain ⟨e, he, heq⟩ := hx
        rw [beq_iff_eq] at heq
        exact absurd heq (hkeydisj e he y hy)
    show (!(evict.any (fun x => x.1 == y.1))) = true
    rw [hfalse]
    rfl
  have hfiltersorted : sorted.filter pNot = sorted.drop m := by
    have h1 : evict.filter pNot = [] :=
      List.filter_eq_nil_iff.mpr (fun a ha => by simp [hevictNot a ha])
    have h2 : (sorted.drop m).filter pNot = sorted.drop m :=
      List.filter_eq_self.mpr (fun a ha => hrestKeep a ha)
    calc sorted.filter pNot = (evict ++ sorted.drop m).filter pNot := by rw [happ]
      _ = evict.filter pNot ++ (sorted.drop m).filter pNot := List.filter_append _ _
      _ = sorted.drop m := by rw [h1, h2, List.nil_append]
  have hrperm : r.Perm (sorted.drop m) := by
    have hp := List.Perm.filter pNot hperm.symm
    rw [hfiltersorted] at hp
    exact hp
  have hmemevict : ∀ x ∈ l, x ∉ r → x ∈ evict := by
    intro x hx hxr
    rw [hrdef] at hxr
    have hpx : (!(evict.any (fun e => e.1 == x.1))) = false := by
      cases hb : pNot x with
      | false => exact hb
      | true => exact absurd (List.mem_filter.mpr ⟨hx, hb⟩) hxr
    have hany : evict.any (fun e => e.1 == x.1) = true := by
      cases hb : evict.any (fun e => e.1 == x.1) with
      | true => rfl
      | false => rw [hb] at hpx; simp at hpx
    rw [List.any_eq_true] at hany
    obtain ⟨e, he, heq⟩ := hany
    rw [beq_iff_eq] at heq
    have hel : e ∈ l := hperm.mem_iff.mp (List.mem_of_mem_take he)
    have hex : e = x := List.inj_on_of_nodup_map hnodup hel hx heq
    rw [← hex]
    exact he
  have hevlen : evict.length = m := by
    rw [hevictdef, List.length_take]
    exact min_eq_left (by omega)
  refine ⟨?_, ?_, ?_⟩
  · rw [hrperm.length_eq, List.length_drop]
    omega
  · intro x hx hxr y hyr
    exact hpairwise x (hmemevict x hx hxr) y (hrperm.mem_iff.mp hyr)
  · intro x hx hcount
    by_contra hxr
    have hxe := hmemevict x hx hxr
    have hrestq : (sorted.drop m).filter (fun kv => decide (kv.2 < x.2)) = [] :=
      List.filter_eq_nil_iff.mpr (by
        intro y hy
        have hle := hpairwise x hxe y hy
        simp
        omega)
    have hql : (l.filter (fun kv => decide (kv.2 < x.2))).length
        = (evict.filter (fun kv => decide (kv.2 < x.2))).length := by
      have hp := List.Perm.filter (fun kv => decide (kv.2 < x.2)) hperm
      have hsp : sorted.filter (fun kv => decide (kv.2 < x.2))
          = evict.filter (fun kv => decide (kv.2 < x.2)) := by
        conv_lhs => rw [← happ]
        rw [List.filter_append, hrestq]
        simp
      rw [← hp.length_eq, hsp]
    have hlt : (evict.filter (fun kv => decide (kv.2 < x.2))).length < evict.length :=
      List.length_filter_lt_length_iff_exists.mpr ⟨x, hxe, by simp⟩
    omega

/-- Claim C7: whenever the seen window exceeds the ceiling (5000),
pruning first evicts every entry older than the TTL (3600 s); if still
above the ceiling it evicts the oldest remaining entries by first-seen
time, ending at or under the ceiling, and every within-TTL entry with
at least `size-after-TTL-phase - 5000` strictly older within-TTL
companions is retained. -/
theorem C7_seen_window_eviction :
    ∀ (now : ℤ) (seen : List (String × ℤ)),
      SEEN_MAX < seen.length →
      (seen.map Prod.fst).Nodup →
      ((prune_seen now seen).length ≤ SEEN_MAX) ∧
      (∀ kv ∈ seen, kv.2 < now - SEEN_TTL → kv ∉ prune_seen now seen) ∧
      (∀ kv ∈ prune_seen now seen, kv ∈ seen ∧ now - SEEN_TTL ≤ kv.2) ∧
      (∀ x ∈ seen.filter (fun kv => !decide (kv.2 < now - SEEN_TTL)),
        x ∉ prune_seen now seen → ∀ y ∈ prune_seen now seen, x.2 ≤ y.2) ∧
      (∀ x ∈ seen.filter (fun kv => !decide (kv.2 < now - SEEN_TTL)),
        (seen.filter (fun kv => !decide (kv.2 < now - SEEN_TTL))).length - SEEN_MAX
            ≤ (seen.filter (fun kv =>
                decide (kv.2 < x.2) && !decide (kv.2 < now - SEEN_TTL))).length →
        x ∈ prune_seen now seen) := by
  intro now seen hlen hnodup
  set pK : String × ℤ → Bool := fun kv => !decide (kv.2 < now - SEEN_TTL) with hpK
  have hs1sub : (seen.filter pK).Sublist seen := List.filter_sublist seen
  have hnodup1 : ((seen.filter pK).map Prod.fst).Nodup :=
    (hs1sub.map Prod.fst).nodup hnodup
  have hmems1 : ∀ kv, kv ∈ seen.filter pK ↔ (kv ∈ seen ∧ now - SEEN_TTL ≤ kv.2) := by
    intro kv
    rw [List.mem_filter, hpK]
    constructor
    · rintro ⟨h1, h2⟩
      simp at h2
      exact ⟨h1, by omega⟩
    · rintro ⟨h1, h2⟩
      refine ⟨h1, ?_⟩
      simp
      omega
  by_cases hphase : SEEN_MAX < (seen.filter pK).length
  · have hpr : prune_seen now seen =
        (seen.filter pK).filter (fun kv =>
          !(((seen.filter pK).insertionSort seenLe).take
              ((seen.filter pK).length - SEEN_MAX)).any (fun e => e.1 == kv.1)) := by
      unfold prune_seen
      rw [if_pos hlen]
      dsimp only
      rw [if_pos hphase]
    obtain ⟨hA, hB, hC⟩ := prune_phase2_spec (seen.filter pK) hnodup1 hphase
    refine ⟨?_, ?_, ?_, ?_, ?_⟩
    · rw [hpr, hA]
    · intro kv hkv hold hmem
      rw [hpr] at hmem
      have hkv1 : kv ∈ seen.filter pK := List.mem_filter.mp hmem |>.1
      have := (hmems1 kv).mp hkv1
      omega
    · intro kv hmem
      rw [hpr] at hmem
      exact (hmems1 kv).mp (List.mem_filter.mp hmem |>.1)
    · intro x hx hxr y hy
      rw [hpr] at hxr hy
      exact hB x hx hxr y hy
    · intro x hx hcount
      rw [hpr]
      apply hC x hx
      rw [List.filter_filter]
      exact hcount
  · have hpr : prune_seen now seen = seen.filter pK := by
      unfold prune_seen
      rw [if_pos hlen]
      dsimp only
      rw [if_neg hphase]
    refine ⟨?_, ?_, ?_, ?_, ?_⟩
    · rw [hpr]
      omega
    · intro kv hkv hold hmem
      rw [hpr] at hmem
      have := (hmems1 kv).mp hmem
      omega
    · intro kv hmem
      rw [hpr] at hmem
      exact (hmems1 kv).mp hmem
    · intro x hx hxr y hy
      rw [hpr] at hxr
      exact absurd hx hxr
    · intro x hx hcount
      rw [hpr]
      exact hx

/-- Concrete instantiation of `C7_seen_window_eviction` on a 5001-entry
window. -/
theorem C7_seen_window_eviction_witness :
    (prune_seen 10000 ((List.range 5001).map
        (fun i => (String.mk (List.replicate i 'a'), (0 : ℤ))))).length ≤ SEEN_MAX := by
  have hinj : Function.Injective (fun i => String.mk (List.replicate i 'a')) := by
    intro a b hab
    have h2 : (List.replicate a 'a').length = (List.replicate b 'a').length := by
      have h3 := congrArg (fun s : String => s.data.length) hab
      simpa using h3
    simpa using h2
  apply (C7_seen_window_eviction 10000 _ ?_ ?_).1
  · simp [SEEN_MAX]
  · have hmm : (((List.range 5001).map
        (fun i => (String.mk (List.replicate i 'a'), (0 : ℤ)))).map Prod.fst)
        = (List.range 5001).map (fun i => String.mk (List.replicate i 'a')) := by
      rw [List.map_map]
      rfl
    rw [hmm]
    exact List.Nodup.map hinj (List.nodup_range 5001)

end Kubeluma
